import Mathlib

/-!
Verification of the lexical-equivalence discovery scripts
(`pg_whitespace_fuzzer.py`, `pg_whitespace_double_fuzzer.py`,
`pg_whitespace_triple_fuzzer.py`, `pg_whitespace_quad_fuzzer.py`,
`pg_waf_evasion_http_fuzzer.py`, `pg_comprehensive_fuzzer.py`,
`fuzzer_utils.py`).

The oracle (a live PostgreSQL session) is modelled as an opaque function
from the rendered probe string (a list of Unicode code points) to an
`Outcome`.  Every scan loop of the scripts is embedded as a fold over the
exact candidate sequence the Python loops generate.
-/

namespace SqliFuzz

/-- Result of executing one probe against the oracle: either the statement
executed and returned rows (`cur.fetchall()` / `cur.fetchone()` data,
cells modelled as integers), or the driver raised `psycopg2.Error`. -/
inductive Outcome where
  | rows (data : List (List Int))
  | oracleError (msg : String)
deriving DecidableEq

/-- The oracle: an opaque function from a rendered probe (list of Unicode
code points) to an outcome. -/
def Oracle : Type := List Nat → Outcome

/-- Code points of a literal ASCII string fragment of a probe template. -/
def strCodes (s : String) : List Nat := s.toList.map Char.toNat

/-- Line 68 of `pg_whitespace_fuzzer.py`: `f"SELECT 1 UNION{char}SELECT 2"`,
the keyword-separator template, with the candidate code points in the slot. -/
def renderUnion (cs : List Nat) : List Nat :=
  strCodes ("SELECT 1 UNION") ++ cs ++ strCodes ("SELECT 2")

/-- Line 80 of `pg_whitespace_fuzzer.py`: `f"SELECT{char}1"`, the post-keyword
template. -/
def renderAfterSelect (cs : List Nat) : List Nat :=
  strCodes ("SELECT") ++ cs ++ strCodes ("1")

/-- Test 1 of `pg_whitespace_fuzzer.py` (lines 67-76): the probe executed
without `psycopg2.Error` and `len(cur.fetchall()) == 2`. -/
def isConfirmedUnion (o : Outcome) : Bool :=
  match o with
  | .rows d => d.length == 2
  | .oracleError _ => false

/-- Test 2 of `pg_whitespace_fuzzer.py` (lines 79-89): no error,
`result = cur.fetchone()` is truthy (a nonempty row) and `result[0] == 1`. -/
def isConfirmedSelect (o : Outcome) : Bool :=
  match o with
  | .rows d =>
    match d.head? with
    | some (x :: _) => x == 1
    | _ => false
  | .oracleError _ => false

/-- One iteration of the width-1 loop (`pg_whitespace_fuzzer.py` lines
63-89): run the keyword-separator probe and append `i` to
`valid_whitespace` on success; then run the post-keyword probe and append
`i` to `valid_after_select` on success, but only if
`i not in valid_whitespace`. -/
def widthOneStep (oracle : Oracle) (st : List Nat × List Nat) (i : Nat) :
    List Nat × List Nat :=
  let vw := if isConfirmedUnion (oracle (renderUnion [i])) then st.1 ++ [i] else st.1
  let vas :=
    if isConfirmedSelect (oracle (renderAfterSelect [i])) = true ∧ i ∉ vw then
      st.2 ++ [i]
    else st.2
  (vw, vas)

/-- The candidate range of the width-1 phase: `range(0x10000)`. -/
def widthOneCandidates : List Nat := List.range 0x10000

/-- The whole width-1 scan: the final `(valid_whitespace,
valid_after_select)` lists of `pg_whitespace_fuzzer.py`. -/
def widthOneScan (oracle : Oracle) : List Nat × List Nat :=
  widthOneCandidates.foldl (widthOneStep oracle) ([], [])

/-- Abbreviation: test-1 success for code point `i`. -/
def w1UnionOk (oracle : Oracle) (i : Nat) : Bool :=
  isConfirmedUnion (oracle (renderUnion [i]))

/-- Abbreviation: test-2 success for code point `i`. -/
def w1SelectOk (oracle : Oracle) (i : Nat) : Bool :=
  isConfirmedSelect (oracle (renderAfterSelect [i]))

theorem widthOneScan_aux (oracle : Oracle) :
    ∀ (L : List Nat) (st : List Nat × List Nat), L.Nodup →
    (∀ i ∈ L, i ∉ st.1) →
    L.foldl (widthOneStep oracle) st =
      (st.1 ++ L.filter (fun i => w1UnionOk oracle i),
       st.2 ++ L.filter (fun i => w1SelectOk oracle i && !w1UnionOk oracle i)) := by
  intro L
  induction L with
  | nil => intro st _ _; simp
  | cons a L ih =>
    intro st hnd hfresh
    have haSt : a ∉ st.1 := hfresh a (by simp)
    have hndL : L.Nodup := (List.nodup_cons.mp hnd).2
    have haL : a ∉ L := (List.nodup_cons.mp hnd).1
    have hstep : widthOneStep oracle st a =
        (st.1 ++ (if w1UnionOk oracle a then [a] else []),
         st.2 ++ (if w1SelectOk oracle a && !w1UnionOk oracle a then [a] else [])) := by
      unfold widthOneStep w1UnionOk w1SelectOk
      by_cases hu : isConfirmedUnion (oracle (renderUnion [a])) = true
      · have hmem : a ∈ st.1 ++ [a] := by simp
        simp [hu, hmem]
      · have hu' : isConfirmedUnion (oracle (renderUnion [a])) = false :=
          Bool.eq_false_iff.mpr hu
        by_cases hs : isConfirmedSelect (oracle (renderAfterSelect [a])) = true
        · simp [hu', hs, haSt]
        · have hs' : isConfirmedSelect (oracle (renderAfterSelect [a])) = false :=
            Bool.eq_false_iff.mpr hs
          simp [hu', hs']
    rw [List.foldl_cons, hstep, ih _ hndL ?fresh]
    case fresh =>
      intro i hi
      simp only []
      intro hmem
      rcases List.mem_append.mp hmem with h1 | h2
      · exact hfresh i (by simp [hi]) h1
      · rcases (by split at h2 <;> simp_all : i = a) with rfl
        exact haL hi
    by_cases hu : w1UnionOk oracle a
    · by_cases hs : w1SelectOk oracle a <;>
        simp [hu, hs, List.filter_cons, List.append_assoc]
    · by_cases hs : w1SelectOk oracle a <;>
        simp [hu, hs, List.filter_cons, List.append_assoc]

/-- Closed form of the width-1 scan: `valid_whitespace` is exactly the
confirmed code points of the keyword-separator template in range order;
`valid_after_select` is exactly the code points where the post-keyword
probe succeeds and the keyword-separator probe does not. -/
theorem widthOneScan_eq (oracle : Oracle) :
    widthOneScan oracle =
      (widthOneCandidates.filter (fun i => w1UnionOk oracle i),
       widthOneCandidates.filter
         (fun i => w1SelectOk oracle i && !w1UnionOk oracle i)) := by
  have h := widthOneScan_aux oracle widthOneCandidates ([], [])
    (by simpa [widthOneCandidates] using List.nodup_range 0x10000)
    (by intro i _ h; exact absurd h (List.not_mem_nil i))
  simpa [widthOneScan] using h

theorem widthOneScan_fst (oracle : Oracle) :
    (widthOneScan oracle).1 =
      widthOneCandidates.filter (fun i => w1UnionOk oracle i) := by
  rw [widthOneScan_eq]

theorem widthOneScan_snd (oracle : Oracle) :
    (widthOneScan oracle).2 =
      widthOneCandidates.filter
        (fun i => w1SelectOk oracle i && !w1UnionOk oracle i) := by
  rw [widthOneScan_eq]

/-- C1: in the width-1 phase, a code point `i` in `0x0000`-`0xFFFF` is
recorded in the true-whitespace list `valid_whitespace` if and only if the
rendered probe `SELECT 1 UNION{chr(i)}SELECT 2` executes without oracle
error and returns exactly two result rows; an oracle error or any other
row count leaves it unrecorded. -/
theorem claim_C1_width1_true_whitespace (oracle : Oracle) (i : Nat) :
    i ∈ (widthOneScan oracle).1 ↔
      i < 0x10000 ∧ isConfirmedUnion (oracle (renderUnion [i])) = true := by
  rw [widthOneScan_eq]
  simp [widthOneCandidates, List.mem_filter, List.mem_range, w1UnionOk]

theorem mem_w1_whitespace (oracle : Oracle) (i : Nat) :
    i ∈ (widthOneScan oracle).1 ↔ i < 0x10000 ∧ w1UnionOk oracle i = true := by
  rw [widthOneScan_eq]
  simp [widthOneCandidates, List.mem_filter, List.mem_range]

theorem mem_w1_afterSelect (oracle : Oracle) (i : Nat) :
    i ∈ (widthOneScan oracle).2 ↔
      i < 0x10000 ∧ w1SelectOk oracle i = true ∧ w1UnionOk oracle i = false := by
  rw [widthOneScan_eq]
  simp [widthOneCandidates, List.mem_filter, List.mem_range]

/-- C3: the width-1 post-keyword (unary-operator) list and the
true-whitespace list are disjoint: a code point is in `valid_after_select`
exactly when its post-keyword probe succeeds and its keyword-separator
probe does not, and no code point appears in both lists. -/
theorem claim_C3_unary_disjoint_from_whitespace (oracle : Oracle) :
    (∀ i : Nat, i ∈ (widthOneScan oracle).2 ↔
      i < 0x10000 ∧ isConfirmedSelect (oracle (renderAfterSelect [i])) = true ∧
        isConfirmedUnion (oracle (renderUnion [i])) = false) ∧
    (widthOneScan oracle).2.filter
      (fun i => decide (i ∈ (widthOneScan oracle).1)) = [] := by
  constructor
  · intro i
    rw [mem_w1_afterSelect]
    simp [w1SelectOk, w1UnionOk]
  · rw [List.filter_eq_nil_iff]
    intro x hx
    have hvas := (mem_w1_afterSelect oracle x).mp hx
    intro hcontra
    have hvw : x ∈ (widthOneScan oracle).1 := of_decide_eq_true hcontra
    have htrue := ((mem_w1_whitespace oracle x).mp hvw).2
    rw [hvas.2.2] at htrue
    exact Bool.false_ne_true htrue

/-! ## Width-2 scan (`pg_whitespace_double_fuzzer.py`) -/

/-- The known single-byte whitespace code points,
`single_ws = {0x09, 0x0A, 0x0C, 0x0D, 0x20}` (membership view). -/
def singleWs : List Nat := [0x09, 0x0A, 0x0C, 0x0D, 0x20]

/-- Membership test `b in single_ws`. -/
def wsB (b : Nat) : Bool := singleWs.contains b

/-- The width-2 candidate sequence: `for i in range(256): for j in
range(256)` (lines 45-46). -/
def doubleCandidates : List (Nat × Nat) :=
  (List.range 256).flatMap (fun i => (List.range 256).map (fun j => (i, j)))

/-- Success of one width-2 probe `SELECT 1 UNION{chr(i)+chr(j)}SELECT 2`. -/
def confD (oracle : Oracle) (p : Nat × Nat) : Bool :=
  isConfirmedUnion (oracle (renderUnion [p.1, p.2]))

/-- One iteration of the width-2 loop (lines 47-60): on success append
`(i, j, both_known)` with `both_known = i in single_ws and j in
single_ws`.  An entry `((i, j), both)` models the Python triple. -/
def doubleStep (oracle : Oracle) (valid : List ((Nat × Nat) × Bool)) (p : Nat × Nat) :
    List ((Nat × Nat) × Bool) :=
  if confD oracle p then valid ++ [(p, wsB p.1 && wsB p.2)] else valid

/-- The final `valid` list of the width-2 scan. -/
def doubleValid (oracle : Oracle) : List ((Nat × Nat) × Bool) :=
  doubleCandidates.foldl (doubleStep oracle) []

/-- Line 71: `expected = [(i, j) for i, j, both in valid if both]`. -/
def doubleExpected (oracle : Oracle) : List (Nat × Nat) :=
  (doubleValid oracle).filterMap (fun t => if t.2 then some t.1 else none)

/-- Line 72: `unexpected = [(i, j) for i, j, both in valid if not both]`. -/
def doubleUnexpected (oracle : Oracle) : List (Nat × Nat) :=
  (doubleValid oracle).filterMap (fun t => if t.2 then none else some t.1)

/-- The Confirmed width-2 pairs: the `(i, j)` projections of `valid`. -/
def doubleConfirmed (oracle : Oracle) : List (Nat × Nat) :=
  (doubleValid oracle).map (fun t => t.1)

theorem foldl_condAppend {α β : Type} (step : List β → α → List β)
    (c : α → Bool) (f : α → β)
    (hstep : ∀ s x, step s x = if c x then s ++ [f x] else s) :
    ∀ (L : List α) (st : List β),
      L.foldl step st = st ++ (L.filter c).map f := by
  intro L
  induction L with
  | nil => intro st; simp
  | cons a L ih =>
    intro st
    rw [List.foldl_cons, hstep, ih, List.filter_cons]
    by_cases h : c a <;> simp [h]

theorem doubleValid_eq (oracle : Oracle) :
    doubleValid oracle =
      (doubleCandidates.filter (confD oracle)).map
        (fun p => (p, wsB p.1 && wsB p.2)) := by
  unfold doubleValid
  exact foldl_condAppend (doubleStep oracle) (confD oracle)
    (fun p => (p, wsB p.1 && wsB p.2))
    (fun s x => rfl) doubleCandidates []

theorem mem_filterMap_guard {α : Type} (c : α → Bool) (l : List α) (p : α) :
    p ∈ l.filterMap (fun q => if c q then some q else none) ↔
      p ∈ l ∧ c p = true := by
  rw [List.mem_filterMap]
  constructor
  · rintro ⟨a, ha, hif⟩
    by_cases hc : c a = true
    · rw [if_pos hc] at hif
      rcases Option.some.injEq .. ▸ hif with rfl
      exact ⟨ha, hc⟩
    · rw [if_neg hc] at hif
      exact absurd hif (by simp)
  · rintro ⟨hp, hc⟩
    exact ⟨p, hp, by rw [if_pos hc]⟩

theorem mem_filterMap_guardNot {α : Type} (c : α → Bool) (l : List α) (p : α) :
    p ∈ l.filterMap (fun q => if c q then none else some q) ↔
      p ∈ l ∧ c p = false := by
  rw [List.mem_filterMap]
  constructor
  · rintro ⟨a, ha, hif⟩
    by_cases hc : c a = true
    · rw [if_pos hc] at hif
      exact absurd hif (by simp)
    · rw [if_neg hc] at hif
      rcases Option.some.injEq .. ▸ hif with rfl
      exact ⟨ha, Bool.eq_false_iff.mpr hc⟩
  · rintro ⟨hp, hc⟩
    exact ⟨p, hp, by rw [if_neg (by simp [hc])]⟩

theorem count_eq_one_of_nodup_mem {α : Type} [BEq α] [LawfulBEq α]
    {l : List α} {a : α} (h : l.Nodup) (ha : a ∈ l) : l.count a = 1 := by
  induction l with
  | nil => cases ha
  | cons x xs ih =>
    rw [List.count_cons]
    rcases List.mem_cons.mp ha with rfl | hmem
    · have hx : xs.count a = 0 :=
        List.count_eq_zero.mpr (List.nodup_cons.mp h).1
      simp [hx]
    · have hne : ¬ (x == a) = true := by
        intro hax
        exact (List.nodup_cons.mp h).1 ((eq_of_beq hax) ▸ hmem)
      rw [if_neg hne, Nat.add_zero]
      exact ih (List.nodup_cons.mp h).2 hmem

theorem mem_doubleCandidates (p : Nat × Nat) :
    p ∈ doubleCandidates ↔ p.1 < 256 ∧ p.2 < 256 := by
  rcases p with ⟨i, j⟩
  simp [doubleCandidates, List.mem_flatMap, List.mem_map, List.mem_range]

theorem nodup_doubleCandidates : doubleCandidates.Nodup := by
  rw [doubleCandidates, List.nodup_flatMap]
  constructor
  · intro i _
    exact (List.nodup_range 256).map (fun a b h => by
      simpa using congrArg Prod.snd h)
  · refine (List.pairwise_lt_range 256).imp ?_
    intro a b hab
    simp only [List.disjoint_left]
    intro p hp hq
    simp only [List.mem_map, List.mem_range] at hp hq
    rcases hp with ⟨j, _, rfl⟩
    rcases hq with ⟨k, _, hk⟩
    have hba : b = a := by simpa using congrArg Prod.fst hk
    omega

theorem mem_doubleConfirmed (oracle : Oracle) (p : Nat × Nat) :
    p ∈ doubleConfirmed oracle ↔
      p ∈ doubleCandidates ∧ confD oracle p = true := by
  rw [doubleConfirmed, doubleValid_eq, List.map_map]
  have heq : ((fun t : (Nat × Nat) × Bool => t.1) ∘
      (fun p : Nat × Nat => (p, wsB p.1 && wsB p.2))) = id := rfl
  rw [heq, List.map_id, List.mem_filter]

theorem mem_doubleExpected (oracle : Oracle) (p : Nat × Nat) :
    p ∈ doubleExpected oracle ↔
      p ∈ doubleCandidates ∧ confD oracle p = true ∧
        (wsB p.1 && wsB p.2) = true := by
  rw [doubleExpected, doubleValid_eq, List.filterMap_map]
  have heq : ((fun t : (Nat × Nat) × Bool => if t.2 then some t.1 else none) ∘
      (fun p : Nat × Nat => (p, wsB p.1 && wsB p.2))) =
      (fun q : Nat × Nat => if (wsB q.1 && wsB q.2) then some q else none) := rfl
  rw [heq, mem_filterMap_guard, List.mem_filter]
  tauto

theorem mem_doubleUnexpected (oracle : Oracle) (p : Nat × Nat) :
    p ∈ doubleUnexpected oracle ↔
      p ∈ doubleCandidates ∧ confD oracle p = true ∧
        (wsB p.1 && wsB p.2) = false := by
  rw [doubleUnexpected, doubleValid_eq, List.filterMap_map]
  have heq : ((fun t : (Nat × Nat) × Bool => if t.2 then none else some t.1) ∘
      (fun p : Nat × Nat => (p, wsB p.1 && wsB p.2))) =
      (fun q : Nat × Nat => if (wsB q.1 && wsB q.2) then none else some q) := rfl
  rw [heq, mem_filterMap_guardNot, List.mem_filter]
  tauto

/-- C2: every pair `(i, j)` with `i, j < 256` occurs exactly once in the
width-2 probe sequence, and a Confirmed pair lands in `expected` iff both
positions are known whitespace, in `unexpected` iff not; so the two lists
partition the Confirmed pairs. -/
theorem claim_C2_double_scan_partition (oracle : Oracle) :
    (∀ p : Nat × Nat,
      doubleCandidates.count p = if p.1 < 256 ∧ p.2 < 256 then 1 else 0) ∧
    (∀ p : Nat × Nat,
      (p ∈ doubleExpected oracle ↔
        p ∈ doubleConfirmed oracle ∧ (wsB p.1 && wsB p.2) = true) ∧
      (p ∈ doubleUnexpected oracle ↔
        p ∈ doubleConfirmed oracle ∧ (wsB p.1 && wsB p.2) = false)) := by
  constructor
  · intro p
    by_cases h : p.1 < 256 ∧ p.2 < 256
    · rw [if_pos h]
      exact count_eq_one_of_nodup_mem nodup_doubleCandidates
        ((mem_doubleCandidates p).mpr h)
    · rw [if_neg h]
      exact List.count_eq_zero.mpr (fun hmem => h ((mem_doubleCandidates p).mp hmem))
  · intro p
    constructor
    · rw [mem_doubleExpected, mem_doubleConfirmed]
      tauto
    · rw [mem_doubleUnexpected, mem_doubleConfirmed]
      tauto

/-! ## Width-3 scan (`pg_whitespace_triple_fuzzer.py`) and width-4 scan
(`pg_whitespace_quad_fuzzer.py`).

`single_ws` is a Python `set`; iterating it yields its elements in hash
table order, which for the five small integers 0x09, 0x0A, 0x0C, 0x0D,
0x20 (table size 8, `hash(n) = n`, no bucket collisions) is
0x20, 0x09, 0x0A, 0x0C, 0x0D.  The properties proved below (membership,
deduplication, known/unexpected classification) depend only on the
elements, not on this order. -/

/-- Iteration order of the Python set `single_ws`. -/
def singleWsIter : List Nat := [0x20, 0x09, 0x0A, 0x0C, 0x0D]

/-- Python `set.add`, modelled on a duplicate-free list: adding an element
already present changes nothing. -/
def pySetAdd {α : Type} [DecidableEq α] (s : List α) (a : α) : List α :=
  if a ∈ s then s else s ++ [a]

/-- The accumulation pattern shared by the width-3 and width-4 scans:
probe each candidate in order and `unexpected.add(combo)` on success. -/
def foldConfirm {α : Type} [DecidableEq α] (c : α → Bool) (L : List α) : List α :=
  L.foldl (fun s t => if c t then pySetAdd s t else s) []

theorem mem_pySetAdd {α : Type} [DecidableEq α] (s : List α) (a x : α) :
    x ∈ pySetAdd s a ↔ x ∈ s ∨ x = a := by
  unfold pySetAdd
  by_cases h : a ∈ s
  · rw [if_pos h]
    constructor
    · exact Or.inl
    · rintro (hx | rfl)
      · exact hx
      · exact h
  · rw [if_neg h]
    simp

theorem nodup_pySetAdd {α : Type} [DecidableEq α] {s : List α} (a : α)
    (h : s.Nodup) : (pySetAdd s a).Nodup := by
  unfold pySetAdd
  by_cases hm : a ∈ s
  · rwa [if_pos hm]
  · rw [if_neg hm]
    rw [List.nodup_append]
    exact ⟨h, List.nodup_singleton a, by simpa using hm⟩

theorem mem_foldConfirm_aux {α : Type} [DecidableEq α] (c : α → Bool) :
    ∀ (L : List α) (st : List α) (x : α),
      x ∈ L.foldl (fun s t => if c t then pySetAdd s t else s) st ↔
        x ∈ st ∨ (x ∈ L ∧ c x = true) := by
  intro L
  induction L with
  | nil => intro st x; simp
  | cons a L ih =>
    intro st x
    rw [List.foldl_cons, ih]
    by_cases hc : c a = true
    · rw [if_pos hc, mem_pySetAdd]
      constructor
      · rintro ((hx | rfl) | hL)
        · exact Or.inl hx
        · exact Or.inr ⟨by simp, hc⟩
        · exact Or.inr ⟨by simp [hL.1], hL.2⟩
      · rintro (hx | ⟨hmem, hcx⟩)
        · exact Or.inl (Or.inl hx)
        · rcases List.mem_cons.mp hmem with rfl | hL
          · exact Or.inl (Or.inr rfl)
          · exact Or.inr ⟨hL, hcx⟩
    · rw [if_neg hc]
      constructor
      · rintro (hx | hL)
        · exact Or.inl hx
        · exact Or.inr ⟨by simp [hL.1], hL.2⟩
      · rintro (hx | ⟨hmem, hcx⟩)
        · exact Or.inl hx
        · rcases List.mem_cons.mp hmem with rfl | hL
          · exact absurd hcx hc
          · exact Or.inr ⟨hL, hcx⟩

theorem mem_foldConfirm {α : Type} [DecidableEq α] (c : α → Bool)
    (L : List α) (x : α) :
    x ∈ foldConfirm c L ↔ x ∈ L ∧ c x = true := by
  rw [foldConfirm, mem_foldConfirm_aux]
  simp

theorem nodup_foldConfirm_aux {α : Type} [DecidableEq α] (c : α → Bool) :
    ∀ (L : List α) (st : List α), st.Nodup →
      (L.foldl (fun s t => if c t then pySetAdd s t else s) st).Nodup := by
  intro L
  induction L with
  | nil => intro st h; simpa
  | cons a L ih =>
    intro st h
    rw [List.foldl_cons]
    apply ih
    by_cases hc : c a = true
    · rw [if_pos hc]; exact nodup_pySetAdd a h
    · rwa [if_neg hc]

theorem nodup_foldConfirm {α : Type} [DecidableEq α] (c : α → Bool)
    (L : List α) : (foldConfirm c L).Nodup :=
  nodup_foldConfirm_aux c L [] List.nodup_nil

/-- Phase-2 byte list of the width-3 scan (lines 74-79):
`[*range(0x21), 0x7F, 0xA0, 0x85]`. -/
def testBytes : List Nat := List.range 0x21 ++ [0x7F, 0xA0, 0x85]

/-- Test `all(c in single_ws for c in combo)` for a 3-tuple. -/
def allWs3 (t : Nat × Nat × Nat) : Bool := wsB t.1 && wsB t.2.1 && wsB t.2.2

/-- Test that all four positions of a 4-tuple are known whitespace. -/
def allWs4 (t : Nat × Nat × Nat × Nat) : Bool :=
  wsB t.1 && wsB t.2.1 && wsB t.2.2.1 && wsB t.2.2.2

/-- The product `product(single_ws, repeat=2)` in set-iteration order. -/
def wsPairs : List (Nat × Nat) :=
  singleWsIter.flatMap (fun a => singleWsIter.map (fun b => (a, b)))

/-- The product `product(single_ws, repeat=3)` in set-iteration order. -/
def wsTriples : List (Nat × Nat × Nat) :=
  singleWsIter.flatMap (fun a =>
    singleWsIter.flatMap (fun b => singleWsIter.map (fun c => (a, b, c))))

/-- The bytes `range(256)` that are not known whitespace (the width-3
scan skips whitespace bytes in its wildcard position). -/
def nonWs256 : List Nat := (List.range 256).filter (fun b => !wsB b)

/-- Line 65 of the width-4 scan:
`non_ws = [b for b in range(128) if b not in single_ws]`. -/
def nonWs128 : List Nat := (List.range 128).filter (fun b => !wsB b)

/-- Width-3 Phase 2 candidate sequence (lines 83-98): all 3-tuples over
`test_bytes` except the all-whitespace ones, in generation order. -/
def tripleP2 : List (Nat × Nat × Nat) :=
  (testBytes.flatMap (fun a =>
    testBytes.flatMap (fun b => testBytes.map (fun c => (a, b, c))))).filter
    (fun t => !allWs3 t)

/-- Width-3 Phase 3 (lines 107-125): `[ws][ws][0x00-0xFF non-ws]`. -/
def tripleP3 : List (Nat × Nat × Nat) :=
  singleWsIter.flatMap (fun w1 =>
    singleWsIter.flatMap (fun w2 => nonWs256.map (fun b => (w1, w2, b))))

/-- Width-3 Phase 4 (lines 127-145): `[ws][0x00-0xFF non-ws][ws]`. -/
def tripleP4 : List (Nat × Nat × Nat) :=
  singleWsIter.flatMap (fun w1 =>
    nonWs256.flatMap (fun b => singleWsIter.map (fun w2 => (w1, b, w2))))

/-- Width-3 Phase 5 (lines 147-165): `[0x00-0xFF non-ws][ws][ws]`. -/
def tripleP5 : List (Nat × Nat × Nat) :=
  nonWs256.flatMap (fun b =>
    singleWsIter.flatMap (fun w1 => singleWsIter.map (fun w2 => (b, w1, w2))))

/-- Probe success for a width-3 candidate. -/
def conf3 (oracle : Oracle) (t : Nat × Nat × Nat) : Bool :=
  isConfirmedUnion (oracle (renderUnion [t.1, t.2.1, t.2.2]))

/-- The `unexpected` set accumulated across width-3 phases 2-5. -/
def tripleUnexpected (oracle : Oracle) : List (Nat × Nat × Nat) :=
  foldConfirm (conf3 oracle) (tripleP2 ++ tripleP3 ++ tripleP4 ++ tripleP5)

/-- Counter `known_valid` of the width-3 scan: the number of Phase-1
(all-known-whitespace) combos that probe successfully (lines 55-65). -/
def tripleKnownValid (oracle : Oracle) : Nat := wsTriples.countP (conf3 oracle)

/-- Width-4 Phase 1 (lines 78-88): `product(single_ws, repeat=4)`. -/
def quadP1 : List (Nat × Nat × Nat × Nat) :=
  singleWsIter.flatMap (fun a => wsTriples.map (fun t => (a, t)))

/-- Width-4 Phase 2 (lines 92-107): `[x][ws][ws][ws]`. -/
def quadP2 : List (Nat × Nat × Nat × Nat) :=
  nonWs128.flatMap (fun b => wsTriples.map (fun t => (b, t)))

/-- Width-4 Phase 3 (lines 111-128): `[ws][x][ws][ws]`. -/
def quadP3 : List (Nat × Nat × Nat × Nat) :=
  singleWsIter.flatMap (fun w1 =>
    nonWs128.flatMap (fun b => wsPairs.map (fun c => (w1, b, c))))

/-- Width-4 Phase 4 (lines 132-149): `[ws][ws][x][ws]`. -/
def quadP4 : List (Nat × Nat × Nat × Nat) :=
  wsPairs.flatMap (fun c =>
    nonWs128.flatMap (fun b => singleWsIter.map (fun w => (c.1, c.2, b, w))))

/-- Width-4 Phase 5 (lines 153-168): `[ws][ws][ws][x]`. -/
def quadP5 : List (Nat × Nat × Nat × Nat) :=
  wsTriples.flatMap (fun c => nonWs128.map (fun b => (c.1, c.2.1, c.2.2, b)))

/-- Width-4 Phase 6 (lines 172-192): `[x][x][ws][ws]`. -/
def quadP6 : List (Nat × Nat × Nat × Nat) :=
  nonWs128.flatMap (fun b1 =>
    nonWs128.flatMap (fun b2 => wsPairs.map (fun c => (b1, b2, c))))

/-- Width-4 Phase 7 (lines 195-213): `[ws][ws][x][x]`. -/
def quadP7 : List (Nat × Nat × Nat × Nat) :=
  wsPairs.flatMap (fun c =>
    nonWs128.flatMap (fun b1 => nonWs128.map (fun b2 => (c.1, c.2, b1, b2))))

/-- Width-4 Phase 8 (lines 216-247): alternating `[x][ws][x][ws]` then
`[ws][x][ws][x]` inside the same innermost iteration. -/
def quadP8 : List (Nat × Nat × Nat × Nat) :=
  nonWs128.flatMap (fun b1 =>
    singleWsIter.flatMap (fun w1 =>
      nonWs128.flatMap (fun b2 =>
        singleWsIter.flatMap (fun w2 =>
          [(b1, w1, b2, w2), (w1, b1, w2, b2)]))))

/-- Probe success for a width-4 candidate. -/
def conf4 (oracle : Oracle) (t : Nat × Nat × Nat × Nat) : Bool :=
  isConfirmedUnion (oracle (renderUnion [t.1, t.2.1, t.2.2.1, t.2.2.2]))

/-- The `unexpected` set accumulated across width-4 phases 2-8. -/
def quadUnexpected (oracle : Oracle) : List (Nat × Nat × Nat × Nat) :=
  foldConfirm (conf4 oracle)
    (quadP2 ++ quadP3 ++ quadP4 ++ quadP5 ++ quadP6 ++ quadP7 ++ quadP8)

/-- Counter `known_valid` of the width-4 scan (lines 78-88). -/
def quadKnownValid (oracle : Oracle) : Nat := quadP1.countP (conf4 oracle)

theorem wsB_false_of_mem_nonWs128 {b : Nat} (h : b ∈ nonWs128) :
    wsB b = false := by
  rw [nonWs128, List.mem_filter] at h
  simpa using h.2

theorem wsB_false_of_mem_nonWs256 {b : Nat} (h : b ∈ nonWs256) :
    wsB b = false := by
  rw [nonWs256, List.mem_filter] at h
  simpa using h.2

theorem wsB_true_of_mem_iter {b : Nat} (h : b ∈ singleWsIter) :
    wsB b = true := by
  simp only [singleWsIter, List.mem_cons, List.not_mem_nil, or_false] at h
  rcases h with rfl | rfl | rfl | rfl | rfl <;> rfl

theorem allWs4_of_mem_quadP1 (t : Nat × Nat × Nat × Nat)
    (h : t ∈ quadP1) : allWs4 t = true := by
  rw [quadP1] at h
  simp only [List.mem_flatMap, List.mem_map] at h
  rcases h with ⟨a, ha, t', ht', rfl⟩
  rw [wsTriples] at ht'
  simp only [List.mem_flatMap, List.mem_map] at ht'
  rcases ht' with ⟨x, hx, y, hy, z, hz, rfl⟩
  simp [allWs4, wsB_true_of_mem_iter ha, wsB_true_of_mem_iter hx,
    wsB_true_of_mem_iter hy, wsB_true_of_mem_iter hz]

theorem quad_phases_not_allWs (t : Nat × Nat × Nat × Nat)
    (h : t ∈ quadP2 ++ quadP3 ++ quadP4 ++ quadP5 ++ quadP6 ++ quadP7 ++ quadP8) :
    allWs4 t = false := by
  simp only [List.mem_append] at h
  rcases h with ((((((h | h) | h) | h) | h) | h) | h)
  · rw [quadP2] at h
    simp only [List.mem_flatMap, List.mem_map] at h
    rcases h with ⟨b, hb, t', _, rfl⟩
    simp [allWs4, wsB_false_of_mem_nonWs128 hb]
  · rw [quadP3] at h
    simp only [List.mem_flatMap, List.mem_map] at h
    rcases h with ⟨w1, _, b, hb, c, _, rfl⟩
    simp [allWs4, wsB_false_of_mem_nonWs128 hb]
  · rw [quadP4] at h
    simp only [List.mem_flatMap, List.mem_map] at h
    rcases h with ⟨c, _, b, hb, w, _, rfl⟩
    simp [allWs4, wsB_false_of_mem_nonWs128 hb]
  · rw [quadP5] at h
    simp only [List.mem_flatMap, List.mem_map] at h
    rcases h with ⟨c, _, b, hb, rfl⟩
    simp [allWs4, wsB_false_of_mem_nonWs128 hb]
  · rw [quadP6] at h
    simp only [List.mem_flatMap, List.mem_map] at h
    rcases h with ⟨b1, hb1, b2, _, c, _, rfl⟩
    simp [allWs4, wsB_false_of_mem_nonWs128 hb1]
  · rw [quadP7] at h
    simp only [List.mem_flatMap, List.mem_map] at h
    rcases h with ⟨c, _, b1, hb1, b2, _, rfl⟩
    simp [allWs4, wsB_false_of_mem_nonWs128 hb1]
  · rw [quadP8] at h
    simp only [List.mem_flatMap] at h
    rcases h with ⟨b1, hb1, w1, _, b2, hb2, w2, _, hmem⟩
    rcases List.mem_pair.mp hmem with rfl | rfl
    · simp [allWs4, wsB_false_of_mem_nonWs128 hb1]
    · simp [allWs4, wsB_false_of_mem_nonWs128 hb1]

/-- C4: the accumulated Confirmed collections contain no duplicate
tuples at any width: the width-1 lists, the width-2 `valid` projection,
and the width-3/width-4 `unexpected` sets are all duplicate-free, for
every oracle. -/
theorem claim_C4_no_duplicate_confirmed (oracle : Oracle) :
    (widthOneScan oracle).1.Nodup ∧ (widthOneScan oracle).2.Nodup ∧
    (doubleConfirmed oracle).Nodup ∧
    (tripleUnexpected oracle).Nodup ∧ (quadUnexpected oracle).Nodup := by
  have hrange : widthOneCandidates.Nodup := by
    simpa [widthOneCandidates] using List.nodup_range 0x10000
  refine ⟨?_, ?_, ?_, ?_, ?_⟩
  · rw [widthOneScan_fst]
    exact hrange.filter _
  · rw [widthOneScan_snd]
    exact hrange.filter _
  · have heq : ((fun t : (Nat × Nat) × Bool => t.1) ∘
        (fun p : Nat × Nat => (p, wsB p.1 && wsB p.2))) = id := rfl
    rw [doubleConfirmed, doubleValid_eq, List.map_map, heq, List.map_id]
    exact nodup_doubleCandidates.filter _
  · exact nodup_foldConfirm _ _
  · exact nodup_foldConfirm _ _

/-- C5: in the width-4 scan, no all-reference-whitespace tuple is ever in
`unexpected` (every `unexpected` member has a position outside the
reference set), `known_valid` counts exactly the Confirmed Phase-1
combos, and every Phase-1 combo is all-reference-whitespace. -/
theorem claim_C5_quad_knownValid_vs_unexpected (oracle : Oracle) :
    (quadUnexpected oracle).filter (fun t => allWs4 t) = [] ∧
    quadKnownValid oracle = (quadP1.filter (conf4 oracle)).length ∧
    quadP1.filter (fun t => !allWs4 t) = [] := by
  refine ⟨?_, ?_, ?_⟩
  · rw [List.filter_eq_nil_iff]
    intro t ht
    have hmem := ((mem_foldConfirm _ _ t).mp ht).1
    rw [quad_phases_not_allWs t hmem]
    simp
  · rw [quadKnownValid, List.countP_eq_length_filter]
  · rw [List.filter_eq_nil_iff]
    intro t ht
    rw [allWs4_of_mem_quadP1 t ht]
    simp

/-! ## Candidate generation order (claim C9) -/

/-- Strict lexicographic order on 2-tuples of code points. -/
def lex2LtB (p q : Nat × Nat) : Bool :=
  p.1 < q.1 || (p.1 == q.1 && p.2 < q.2)

/-- Strict lexicographic order on 3-tuples of code points. -/
def lex3LtB (p q : Nat × Nat × Nat) : Bool :=
  p.1 < q.1 || (p.1 == q.1 && lex2LtB p.2 q.2)

theorem chain'_rel_of_get? {α : Type} {R : α → α → Prop} :
    ∀ {l : List α}, List.Chain' R l → ∀ (i : Nat) {a b : α},
      l.get? i = some a → l.get? (i + 1) = some b → R a b := by
  intro l
  induction l with
  | nil => intro _ i a b ha _; simp at ha
  | cons x xs ih =>
    intro h i a b ha hb
    rcases List.chain'_cons'.mp h with ⟨hhead, htail⟩
    cases i with
    | zero =>
      rw [List.get?_cons_zero, Option.some.injEq] at ha
      rcases ha with rfl
      rw [List.get?_cons_succ] at hb
      cases xs with
      | nil => simp at hb
      | cons y ys =>
        rw [List.get?_cons_zero, Option.some.injEq] at hb
        rcases hb with rfl
        exact hhead _ (by simp)
    | succ j =>
      rw [List.get?_cons_succ] at ha hb
      exact ih htail j ha hb

set_option maxRecDepth 20000 in
/-- C9 counterexample: within width-3 Phase 2, the candidates generated at
positions 34 and 35 are (0x00, 0x00, 0xA0) followed by (0x00, 0x00, 0x85)
(because `test_bytes` lists 0xA0 before 0x85), so the phase's candidate
sequence is not in ascending lexicographic order. -/
theorem claim_C9_counterexample :
    tripleP2.get? 34 = some (0x00, 0x00, 0xA0) ∧
    tripleP2.get? 35 = some (0x00, 0x00, 0x85) ∧
    ¬ List.Chain' (fun a b => lex3LtB a b = true) tripleP2 := by
  refine ⟨rfl, rfl, ?_⟩
  intro h
  have hrel := chain'_rel_of_get? h 34 (a := ((0x00:Nat), (0x00:Nat), (0xA0:Nat)))
    (b := ((0x00:Nat), (0x00:Nat), (0x85:Nat))) rfl rfl
  exact absurd hrel (by decide)

/-- C9 amended: the width-1 and width-2 scans do generate their candidates
in ascending lexicographic order (the width-2 sequence is even pairwise
increasing). -/
theorem claim_C9_amended_low_widths_sorted :
    List.Pairwise (fun p q => lex2LtB p q = true) doubleCandidates ∧
    List.Pairwise (fun a b : Nat => a < b) widthOneCandidates := by
  constructor
  · rw [doubleCandidates, List.pairwise_flatMap]
    constructor
    · intro a _
      rw [List.pairwise_map]
      refine (List.pairwise_lt_range 256).imp ?_
      intro x y hxy
      simp [lex2LtB, hxy]
    · refine (List.pairwise_lt_range 256).imp ?_
      intro a b hab
      intro x hx y hy
      simp only [List.mem_map, List.mem_range] at hx hy
      rcases hx with ⟨j, _, rfl⟩
      rcases hy with ⟨k, _, rfl⟩
      simp [lex2LtB, hab]
  · simpa [widthOneCandidates] using List.pairwise_lt_range 0x10000

/-! ## HTTP oracle response classification
(`pg_waf_evasion_http_fuzzer.py`, `test_payload`, lines 75-95) -/

/-- A JSON value, as produced by `r.json()`. -/
inductive Json where
  | null
  | bool (b : Bool)
  | num (n : Int)
  | str (s : String)
  | arr (xs : List Json)
  | obj (fields : List (String × Json))

/-- Python `len()` on a JSON value: defined for lists, strings and dicts,
raises `TypeError` (modelled as `none`) otherwise. -/
def jsonLen? : Json → Option Nat
  | .arr xs => some xs.length
  | .str s => some s.length
  | .obj f => some f.length
  | _ => none

/-- Truncation `data["error"][:50]` when the value is a string (the only case the
fixture produces; a non-string value would raise and be re-caught, again
yielding a failure result). -/
def jsonErrTake50 : Json → String
  | .str s => s.take 50
  | _ => ""

/-- The result dict of `test_payload`: `success`, optional `count`,
optional `error` message, and whether the raw body is echoed under
`data`. -/
structure TestPayloadResult where
  success : Bool
  count : Option Nat
  errorMsg : Option String
  dataEchoed : Bool
deriving DecidableEq

/-- Classification by `test_payload` of a parsed JSON object body (lines
88-95): `"users" in data` → success with `len(data["users"])` (a
`TypeError` from `len` is caught by the enclosing `except` and returned
as a failure); elif `"error" in data` → failure with the truncated
message; else → success with the raw data.  The exception message text is
abstracted. -/
def test_payload_classify (data : List (String × Json)) : TestPayloadResult :=
  match List.lookup ("users") data with
  | some v =>
    match jsonLen? v with
    | some n => ⟨true, some n, none, true⟩
    | none => ⟨false, none, some ("TypeError"), false⟩
  | none =>
    match List.lookup ("error") data with
    | some v => ⟨false, none, some (jsonErrTake50 v), false⟩
    | none => ⟨true, none, none, true⟩

/-- C6 counterexample: the body `{"status": "ok"}` contains neither a
`"users"` key nor an `"error"` key, yet `test_payload` classifies it as a
success (echoing the data), not as a malformed-response error. -/
theorem claim_C6_counterexample :
    List.lookup ("users") [("status", Json.str ("ok"))] = none ∧
    List.lookup ("error") [("status", Json.str ("ok"))] = none ∧
    (test_payload_classify [("status", Json.str ("ok"))]).success = true :=
  ⟨rfl, rfl, rfl⟩

/-- C6 amended: a body with a `"users"` key whose value has a length is a
success with that length as count (a `"users"` value without a length is
a failure via the caught `TypeError`); otherwise a body with an
`"error"` key is a failure; and a body of any other shape is a success
with the raw data echoed — the mapper never produces a malformed-response
error for JSON object bodies. -/
theorem claim_C6_amended_classification (data : List (String × Json)) :
    ((test_payload_classify data).success = true ↔
      ((∃ v, List.lookup ("users") data = some v ∧ (jsonLen? v).isSome = true) ∨
       (List.lookup ("users") data = none ∧ List.lookup ("error") data = none))) ∧
    ((test_payload_classify data).count =
      match List.lookup ("users") data with
      | some v => jsonLen? v
      | none => none) ∧
    ((test_payload_classify data).dataEchoed = (test_payload_classify data).success) := by
  rcases hu : List.lookup ("users") data with _ | v
  · rcases he : List.lookup ("error") data with _ | w
    · refine ⟨?_, by simp [test_payload_classify, hu, he], by simp [test_payload_classify, hu, he]⟩
      simp [test_payload_classify, hu, he]
    · refine ⟨?_, by simp [test_payload_classify, hu, he], by simp [test_payload_classify, hu, he]⟩
      simp [test_payload_classify, hu, he]
  · rcases hl : jsonLen? v with _ | n
    · refine ⟨?_, by simp [test_payload_classify, hu, hl], by simp [test_payload_classify, hu, hl]⟩
      simp [test_payload_classify, hu, hl]
    · refine ⟨?_, by simp [test_payload_classify, hu, hl], by simp [test_payload_classify, hu, hl]⟩
      simp [test_payload_classify, hu, hl]

/-! ## Report persistence (claims C7, C8)

`pg_comprehensive_fuzzer.py` lines 596-639 write the report via
`tempfile.mkstemp` in the destination directory, a single `write`, `flush`
+ `os.fsync`, then `os.replace` onto the canonical path.
`pg_whitespace_quad_fuzzer.py` lines 279-303 open the canonical path
directly with mode `"w"` (which truncates it), write, flush and fsync.
A run is modelled as a sequence of file-system operations; a crash stops
the sequence after a prefix. -/

/-- File-system state: contents of the canonical report path and of the
temporary file, `none` when the file does not exist. -/
structure Fs where
  canonical : Option String
  temp : Option String
deriving DecidableEq

/-- Primitive file operations performed by the report writers.  A
`write*` op models the single `f.write(content)` call the scripts make
into a fresh (empty) file. -/
inductive FsOp where
  | createTemp
  | writeTemp (s : String)
  | fsyncTemp
  | renameTempToCanonical
  | openTruncCanonical
  | writeCanonical (s : String)
  | fsyncCanonical

/-- Effect of one operation. -/
def applyOp (fs : Fs) : FsOp → Fs
  | .createTemp => { fs with temp := some ("") }
  | .writeTemp s => { fs with temp := some s }
  | .fsyncTemp => fs
  | .renameTempToCanonical => { canonical := fs.temp, temp := none }
  | .openTruncCanonical => { fs with canonical := some ("") }
  | .writeCanonical s => { fs with canonical := some s }
  | .fsyncCanonical => fs

/-- Run a sequence of operations. -/
def runOps (fs : Fs) (ops : List FsOp) : Fs := ops.foldl applyOp fs

/-- State after a crash that happens once `k` operations completed. -/
def crashState (fs : Fs) (ops : List FsOp) (k : Nat) : Fs :=
  runOps fs (ops.take k)

/-- The comprehensive fuzzer's report write (lines 601-631):
temp file in the destination directory, write, flush+fsync, rename. -/
def comprehensiveWriteOps (content : String) : List FsOp :=
  [.createTemp, .writeTemp content, .fsyncTemp, .renameTempToCanonical]

/-- The quad fuzzer's report write (lines 280-283): `open(outfile, "w")`
(truncating the canonical path), write, flush, fsync — no temp file, no
rename. -/
def quadWriteOps (content : String) : List FsOp :=
  [.openTruncCanonical, .writeCanonical content, .fsyncCanonical]

/-- The atomic-write property claimed for every report write: at every
crash point the canonical path holds the previous complete report or the
complete new one. -/
def atomicWriter (w : String → List FsOp) : Prop :=
  ∀ (old content : String) (k : Nat),
    (crashState ⟨some old, none⟩ (w content) k).canonical = some old ∨
    (crashState ⟨some old, none⟩ (w content) k).canonical = some content

/-- C7 counterexample: the quad fuzzer's write is not atomic — a crash
after its truncating `open` but before the `write` leaves the canonical
path holding the empty string, which is neither the previous report nor
the new one. -/
theorem claim_C7_counterexample :
    (crashState ⟨some ("previous report"), none⟩
      (quadWriteOps ("new report")) 1).canonical = some ("") ∧
    ¬ atomicWriter quadWriteOps := by
  constructor
  · rfl
  · intro h
    rcases h ("previous report") ("new report") 1 with hc | hc
    · have h0 : (crashState ⟨some ("previous report"), none⟩
          (quadWriteOps ("new report")) 1).canonical = some ("") := rfl
      rw [h0] at hc
      exact absurd hc (by decide)
    · have h0 : (crashState ⟨some ("previous report"), none⟩
          (quadWriteOps ("new report")) 1).canonical = some ("") := rfl
      rw [h0] at hc
      exact absurd hc (by decide)

/-- C7 amended: the comprehensive fuzzer's report write is atomic — at
every crash point the canonical path holds either the previous report
(before the rename) or the complete new report (after it).  The quad
fuzzer's direct write does not have this property. -/
theorem claim_C7_amended_comprehensive_atomic : atomicWriter comprehensiveWriteOps := by
  intro old content k
  match k with
  | 0 => left; rfl
  | 1 => left; rfl
  | 2 => left; rfl
  | 3 => left; rfl
  | n + 4 =>
    right
    have htake : (comprehensiveWriteOps content).take (n + 4) =
        comprehensiveWriteOps content :=
      List.take_of_length_le (by simp [comprehensiveWriteOps])
    rw [crashState, htake]
    rfl

/-- Flag `write_ok` of the quad fuzzer (lines 278-303): primary write, else
fallback write to `outfile + ".partial"`. -/
def quad_write_ok (primaryOk fallbackOk : Bool) : Bool :=
  if primaryOk then true else if fallbackOk then true else false

/-- Return value of the quad fuzzer's `main` (line 303):
`0 if write_ok else 1`. -/
def quadMainReturn (primaryOk fallbackOk : Bool) : Nat :=
  if quad_write_ok primaryOk fallbackOk then 0 else 1

/-- The quad fuzzer's process exit status: `sys.exit(main())` (line 307). -/
def quadProcessExit (primaryOk fallbackOk : Bool) : Nat :=
  quadMainReturn primaryOk fallbackOk

/-- Return value of the HTTP fuzzer's `main` (line 409):
`1 if write_failed else 0`. -/
def httpMainReturn (writeFailed : Bool) : Nat := if writeFailed then 1 else 0

/-- The HTTP fuzzer's process exit status: its `__main__` guard (line
413) calls `main()` bare, discarding the return value, so the interpreter
exits 0 on any normal completion. -/
def httpProcessExit (_writeFailed : Bool) : Nat := 0

/-- C8: for the quad fuzzer the exit status is 0 iff the report was
persisted to the primary or fallback path — but the HTTP fuzzer violates
the claim: on a failed write its `main` returns 1, yet the process exits
0 because the return value is discarded. -/
theorem claim_C8_exit_status_bug :
    (∀ p f : Bool, (quadProcessExit p f == 0) = (p || f)) ∧
    httpMainReturn true = 1 ∧
    httpProcessExit true = 0 := by
  refine ⟨?_, rfl, rfl⟩
  intro p f
  cases p <;> cases f <;> rfl

/-! ## `url_encode_char` (`fuzzer_utils.py` lines 127-139) -/

/-- One uppercase hexadecimal digit: `0`-`9` for values below ten,
`A`-`F` above. -/
def hexDigit (n : Nat) : Char :=
  if n < 10 then Char.ofNat (48 + n) else Char.ofNat (55 + n)

/-- Uppercase hexadecimal rendering of a natural number (at least one
digit), as produced by Python's `X` format code. -/
def toHex (n : Nat) : List Char :=
  if _h : n < 16 then [hexDigit n]
  else toHex (n / 16) ++ [hexDigit (n % 16)]
decreasing_by exact Nat.div_lt_self (by omega) (by omega)

/-- Zero-padding to a minimum width, as in Python's `0` format flag. -/
def padZeros (w : Nat) (s : List Char) : List Char :=
  List.replicate (w - s.length) '0' ++ s

/-- Function `url_encode_char` (lines 137-139): `f"%{cp:02X}"` for code points
below 0x100, `f"%u{cp:04X}"` otherwise. -/
def url_encode_char (c : Nat) : String :=
  if c < 0x100 then String.mk ('%' :: padZeros 2 (toHex c))
  else String.mk ('%' :: 'u' :: padZeros 4 (toHex c))

/-- Uppercase hexadecimal digits: `0`-`9` or `A`-`F`. -/
def isUpperHexDigit (ch : Char) : Bool :=
  (48 ≤ ch.toNat && ch.toNat ≤ 57) || (65 ≤ ch.toNat && ch.toNat ≤ 70)

/-- Numeric value of an uppercase hexadecimal digit. -/
def hexVal (ch : Char) : Nat :=
  if ch.toNat ≤ 57 then ch.toNat - 48 else ch.toNat - 55

theorem hexDigit_isUpper {n : Nat} (h : n < 16) :
    isUpperHexDigit (hexDigit n) = true := by
  interval_cases n <;> decide

theorem hexVal_hexDigit {n : Nat} (h : n < 16) : hexVal (hexDigit n) = n := by
  interval_cases n <;> decide

theorem toHex_small {n : Nat} (h : n < 16) : toHex n = [hexDigit n] := by
  rw [toHex, dif_pos h]

theorem toHex_step {n : Nat} (h : ¬ n < 16) :
    toHex n = toHex (n / 16) ++ [hexDigit (n % 16)] := by
  conv_lhs => rw [toHex]
  rw [dif_neg h]

theorem padZeros_two {c : Nat} (h : c < 256) :
    padZeros 2 (toHex c) = [hexDigit (c / 16), hexDigit (c % 16)] := by
  by_cases h16 : c < 16
  · rw [toHex_small h16, padZeros]
    have h1 : c / 16 = 0 := Nat.div_eq_of_lt h16
    have h2 : c % 16 = c := Nat.mod_eq_of_lt h16
    simp [h1, h2, hexDigit, List.replicate]
  · rw [toHex_step h16, toHex_small (by omega : c / 16 < 16), padZeros]
    simp

theorem padZeros_four {c : Nat} (hlow : ¬ c < 256) (h : c < 65536) :
    padZeros 4 (toHex c) =
      [hexDigit (c / 4096), hexDigit (c / 256 % 16),
       hexDigit (c / 16 % 16), hexDigit (c % 16)] := by
  have h16 : ¬ c < 16 := by omega
  have hd16 : ¬ c / 16 < 16 := by omega
  rw [toHex_step h16, toHex_step hd16]
  have e1 : c / 16 / 16 = c / 256 := by omega
  rw [e1]
  by_cases h256 : c / 256 < 16
  · rw [toHex_small h256, padZeros]
    have h4096 : c / 4096 = 0 := by omega
    have e4 : c / 256 % 16 = c / 256 := Nat.mod_eq_of_lt h256
    rw [e4]
    simp [h4096, hexDigit, List.replicate]
  · rw [toHex_step h256, toHex_small (by omega : c / 256 / 16 < 16), padZeros]
    have e3 : c / 256 / 16 = c / 4096 := by omega
    rw [e3]
    simp

/-- C10: `url_encode_char` is total and deterministic on
0x0000-0xFFFF: below 0x100 it yields a percent sign followed by exactly
two uppercase hexadecimal digits whose value is the code point, and from
0x100 to 0xFFFF it yields `%u` followed by exactly four uppercase
hexadecimal digits whose value is the code point. -/
theorem claim_C10_url_encode_char (c : Nat) :
    (c < 0x100 →
      ∃ d1 d2, (url_encode_char c).data = ['%', d1, d2] ∧
        isUpperHexDigit d1 = true ∧ isUpperHexDigit d2 = true ∧
        hexVal d1 * 16 + hexVal d2 = c) ∧
    (0x100 ≤ c → c ≤ 0xFFFF →
      ∃ d1 d2 d3 d4, (url_encode_char c).data = ['%', 'u', d1, d2, d3, d4] ∧
        isUpperHexDigit d1 = true ∧ isUpperHexDigit d2 = true ∧
        isUpperHexDigit d3 = true ∧ isUpperHexDigit d4 = true ∧
        ((hexVal d1 * 16 + hexVal d2) * 16 + hexVal d3) * 16 + hexVal d4 = c) := by
  constructor
  · intro h
    refine ⟨hexDigit (c / 16), hexDigit (c % 16), ?_, ?_, ?_, ?_⟩
    · rw [url_encode_char, if_pos h, padZeros_two h]
    · exact hexDigit_isUpper (by omega)
    · exact hexDigit_isUpper (by omega)
    · rw [hexVal_hexDigit (by omega), hexVal_hexDigit (by omega)]
      omega
  · intro hlo hhi
    have hlow : ¬ c < 256 := by omega
    refine ⟨hexDigit (c / 4096), hexDigit (c / 256 % 16),
      hexDigit (c / 16 % 16), hexDigit (c % 16), ?_, ?_, ?_, ?_, ?_, ?_⟩
    · rw [url_encode_char, if_neg hlow, padZeros_four hlow (by omega)]
    · exact hexDigit_isUpper (by omega)
    · exact hexDigit_isUpper (by omega)
    · exact hexDigit_isUpper (by omega)
    · exact hexDigit_isUpper (by omega)
    · rw [hexVal_hexDigit (by omega), hexVal_hexDigit (by omega),
        hexVal_hexDigit (by omega), hexVal_hexDigit (by omega)]
      omega

/-- Witness for C10 at the concrete code points 0x2B (→ `%2B`) and 0x1680
(→ `%u1680`). -/
theorem claim_C10_url_encode_char_witness :
    (∃ d1 d2, (url_encode_char 0x2B).data = ['%', d1, d2] ∧
      isUpperHexDigit d1 = true ∧ isUpperHexDigit d2 = true ∧
      hexVal d1 * 16 + hexVal d2 = 0x2B) ∧
    (∃ d1 d2 d3 d4, (url_encode_char 0x1680).data = ['%', 'u', d1, d2, d3, d4] ∧
      isUpperHexDigit d1 = true ∧ isUpperHexDigit d2 = true ∧
      isUpperHexDigit d3 = true ∧ isUpperHexDigit d4 = true ∧
      ((hexVal d1 * 16 + hexVal d2) * 16 + hexVal d3) * 16 + hexVal d4 = 0x1680) :=
  ⟨(claim_C10_url_encode_char 0x2B).1 (by decide),
   (claim_C10_url_encode_char 0x1680).2 (by decide) (by decide)⟩

end SqliFuzz
